import Mathlib

/-!
A verification development for the go-webext multi-backend browser-extension
store client.  The definitions below are shallow embeddings of the Go source:

* `internal/edge/edge.go` — the Microsoft Edge store backend
  (`Status.UnmarshalJSON`, the `Store.Update` wait loop, `Store.Insert`);
* `internal/chrome/chrome.go` — the Chrome Web Store backend
  (`UploadState.UnmarshalJSON`, `Store.Insert` / `Store.Update` response
  handling, `Store.Publish`);
* `internal/firefox/firefox.go` and `internal/firefox/api/api.go` — the AMO
  backend (`Store.AwaitValidation`, `Client.GenAuthHeader`, `api.AuthHeader`,
  `ReviewedStatus.UnmarshalJSON`);
* the newer AMO store built on the `API` interface
  (`Store.Sign`, `Store.isSigned`, `Store.awaitUploadValidation`,
  `Store.awaitVersionSigning`, `Store.downloadSigned`).

Network interaction is modelled by explicit request traces (a list of the
requests a function issues, in order) and by scripted responses (a list of the
responses a test server would return to consecutive queries).  Wall-clock time
inside the polling loops is modelled by a natural-number `elapsed` counter
advanced by the retry interval on each sleep, exactly where the Go code calls
`time.Sleep`; the loops compare it against the maximum-await bound the way the
source compares `time.Since(startTime)` (strict greater-than).
-/

/-! ## Edge backend: status decoding (edge.go, `Status` / `Status.UnmarshalJSON`) -/

/-- Go `edge.Status` enumeration (`StatusInvalid`, `StatusInProgress`,
`StatusSucceeded`, `StatusFailed`). -/
inductive EdgeStatus where
  | statusInvalid
  | statusInProgress
  | statusSucceeded
  | statusFailed
deriving DecidableEq, Repr

/-- Shallow embedding of `edge.Status.UnmarshalJSON` applied to the decoded
JSON string value: the fixed three-entry lookup table; any other string is a
hard error (`fmt.Errorf("unknown status: %s", status)`). -/
def edgeStatusUnmarshal (status : String) : Except String EdgeStatus :=
  if status = "InProgress" then .ok .statusInProgress
  else if status = "Succeeded" then .ok .statusSucceeded
  else if status = "Failed" then .ok .statusFailed
  else .error ("unknown status: " ++ status)

/-! ## Chrome backend: upload-state decoding (chrome.go, `UploadState.UnmarshalJSON`) -/

/-- Go `chrome.UploadState` enumeration. -/
inductive UploadState where
  | invalid
  | success
  | failure
  | inProgress
  | notFound
deriving DecidableEq, Repr

/-- Shallow embedding of `chrome.UploadState.UnmarshalJSON` applied to the
decoded JSON string value: the fixed four-entry lookup table; any other string
is a hard error (`fmt.Errorf("unknown upload state: %q", state)`). -/
def uploadStateUnmarshal (state : String) : Except String UploadState :=
  if state = "SUCCESS" then .ok .success
  else if state = "FAILURE" then .ok .failure
  else if state = "IN_PROGRESS" then .ok .inProgress
  else if state = "NOT_FOUND" then .ok .notFound
  else .error ("unknown upload state: \x22" ++ state ++ "\x22")

/-! ## Edge backend: the `Store.Update` wait loop and `Store.Insert` (edge.go) -/

/-- One scripted response of the Edge upload-status endpoint: the raw
`status` string of the JSON body plus its `message` field. -/
structure EdgeResponse where
  status : String
  message : String
deriving DecidableEq, Repr

/-- Errors the `edge.Store.Update` wait loop can return. -/
inductive EdgeUpdateError where
  /-- `"update failed due to timeout"`. -/
  | timeout
  /-- `UploadStatus` failed (transport failure / script exhausted). -/
  | requestFailed
  /-- `UploadStatus` failed because the body carried an unknown status string
  (the `Status.UnmarshalJSON` error propagated through `json.Unmarshal`). -/
  | unknownStatus (status : String)
  /-- `"update failed due to %s"` — terminal `StatusFailed`. -/
  | updateFailed (message : String)
deriving DecidableEq, Repr

/-- Shallow embedding of the wait loop of `edge.Store.Update` (the `for` loop
after the upload step).  `script` is the sequence of status responses
consecutive `UploadStatus` queries would receive; the returned `Nat` counts
the status queries issued.  Per iteration the source checks
`time.Now().After(startTime.Add(WaitStatusTimeout))` first, then queries,
then branches on the decoded status; an `InProgress` status sleeps
`RetryTimeout` before re-polling, which is where `elapsed` advances. -/
def edgeUpdateLoop (retryTimeout waitStatusTimeout : Nat) (elapsed : Nat) :
    List EdgeResponse → Nat × Except EdgeUpdateError EdgeResponse
  | [] =>
    if waitStatusTimeout < elapsed then (0, .error .timeout)
    else (0, .error .requestFailed)
  | r :: rest =>
    if waitStatusTimeout < elapsed then (0, .error .timeout)
    else
      match edgeStatusUnmarshal r.status with
      | .error _ => (1, .error (.unknownStatus r.status))
      | .ok .statusInProgress =>
        let next := edgeUpdateLoop retryTimeout waitStatusTimeout
          (elapsed + retryTimeout) rest
        (next.1 + 1, next.2)
      | .ok .statusSucceeded => (1, .ok r)
      | .ok .statusFailed => (1, .error (.updateFailed r.message))
      | .ok .statusInvalid =>
        -- unreachable after decoding; the Go loop would re-poll immediately
        -- (none of the three `if` branches fires, no sleep happens)
        let next := edgeUpdateLoop retryTimeout waitStatusTimeout elapsed rest
        (next.1 + 1, next.2)

/-- Outcome of `edge.Store.Insert`: the network requests issued, the returned
`[]byte` result and the returned error. -/
structure EdgeInsertOutcome where
  requests : List String
  result : Option (List Nat)
  err : Option String
deriving DecidableEq, Repr

/-- Shallow embedding of `edge.Store.Insert`: the body is a single `return`
statement producing a nil result and a fixed error; no request is built or
sent. -/
def edgeInsert : EdgeInsertOutcome where
  requests := []
  result := none
  err := some ("there is no API for creating a new store item. " ++
    "you must complete these tasks manually in Microsoft Partner Center")

/-! ## Theorems: C1 and C10 -/

/-- C1: every backend-native status string outside the fixed mapping table is
a hard decoding error, for both the Edge `Status` decoder and the Chrome
`UploadState` decoder, and the Edge wait loop queried with such a status
string stops with an error after that single query instead of continuing as
pending. -/
theorem unknown_status_is_hard_error (s t : String)
    (hs1 : s ≠ "InProgress") (hs2 : s ≠ "Succeeded") (hs3 : s ≠ "Failed")
    (ht1 : t ≠ "SUCCESS") (ht2 : t ≠ "FAILURE")
    (ht3 : t ≠ "IN_PROGRESS") (ht4 : t ≠ "NOT_FOUND")
    (retryTimeout waitStatusTimeout : Nat) (msg : String)
    (rest : List EdgeResponse) :
    edgeStatusUnmarshal s = .error ("unknown status: " ++ s)
    ∧ uploadStateUnmarshal t = .error ("unknown upload state: \x22" ++ t ++ "\x22")
    ∧ edgeUpdateLoop retryTimeout waitStatusTimeout 0 (⟨s, msg⟩ :: rest)
        = (1, .error (.unknownStatus s)) := by
  refine ⟨?_, ?_, ?_⟩
  · simp [edgeStatusUnmarshal, hs1, hs2, hs3]
  · simp [uploadStateUnmarshal, ht1, ht2, ht3, ht4]
  · simp [edgeUpdateLoop, edgeStatusUnmarshal, hs1, hs2, hs3]

/-- Witness for `unknown_status_is_hard_error` at the concrete unknown status
string `"Bogus"`. -/
theorem unknown_status_is_hard_error_witness :
    edgeStatusUnmarshal "Bogus" = .error ("unknown status: " ++ "Bogus")
    ∧ uploadStateUnmarshal "Bogus"
        = .error ("unknown upload state: \x22" ++ "Bogus" ++ "\x22")
    ∧ edgeUpdateLoop 5 60 0 (⟨"Bogus", "m"⟩ :: [⟨"InProgress", ""⟩])
        = (1, .error (.unknownStatus "Bogus")) :=
  unknown_status_is_hard_error "Bogus" "Bogus"
    (by decide) (by decide) (by decide) (by decide) (by decide) (by decide)
    (by decide) 5 60 "m" [⟨"InProgress", ""⟩]

/-- C10: `edge.Store.Insert` unconditionally returns a nil result and an
error, without issuing any network request. -/
theorem edge_insert_always_errors :
    edgeInsert.requests = [] ∧ edgeInsert.result = none ∧ edgeInsert.err.isSome := by
  refine ⟨rfl, rfl, rfl⟩

/-! ## Firefox backend: polling loops (firefox.go `Store.AwaitValidation`;
newer store `Store.awaitUploadValidation`) -/

/-- The fields of the AMO `UploadStatus` JSON body that the polling loops
inspect (`processed`, `valid`). -/
structure FirefoxUploadStatus where
  processed : Bool
  valid : Bool
deriving DecidableEq, Repr

/-- The fields of the AMO `UploadDetail` JSON body that
`awaitUploadValidation` inspects. -/
structure UploadDetail where
  uuid : String
  processed : Bool
  valid : Bool
  url : String
deriving DecidableEq, Repr

/-- Errors the Firefox polling loops can return. -/
inductive FirefoxError where
  /-- `"await validation timeout"`. -/
  | validationTimeout
  /-- the status query itself failed (`"getting upload status: %w"`). -/
  | requestFailed
  /-- `"not valid, validation url: %s"` — processed but invalid. -/
  | notValid (validationURL : String)
deriving DecidableEq, Repr

/-- Shallow embedding of the loop of `firefox.Store.AwaitValidation`.
`script` is the sequence of upload statuses consecutive `UploadStatus`
queries receive (its exhaustion models a failing query); the returned `Nat`
counts the status queries issued.  Per iteration the source checks
`time.Since(startTime) > maxAwaitTime` first, then queries, breaks on
`Processed`, and otherwise sleeps `retryInterval` — where `elapsed`
advances. -/
def awaitValidationLoop (retryInterval maxAwaitTime elapsed : Nat) :
    List FirefoxUploadStatus → Nat × Except FirefoxError Unit
  | [] =>
    if maxAwaitTime < elapsed then (0, .error .validationTimeout)
    else (0, .error .requestFailed)
  | st :: rest =>
    if maxAwaitTime < elapsed then (0, .error .validationTimeout)
    else if st.processed then (1, .ok ())
    else
      let next := awaitValidationLoop retryInterval maxAwaitTime
        (elapsed + retryInterval) rest
      (next.1 + 1, next.2)

/-- `firefox.Store.AwaitValidation` with its hard-coded constants:
`retryInterval = time.Second`, `maxAwaitTime = time.Minute * 20` (measured in
seconds here). -/
def awaitValidation (script : List FirefoxUploadStatus) :
    Nat × Except FirefoxError Unit :=
  awaitValidationLoop 1 (20 * 60) 0 script

/-- Shallow embedding of the loop of the newer store's
`Store.awaitUploadValidation`: same shape as `awaitValidationLoop`, except
that a processed-but-invalid upload is a hard `notValid` error carrying the
validation URL. -/
def awaitUploadValidationLoop (retryInterval maxAwaitTime elapsed : Nat) :
    List UploadDetail → Nat × Except FirefoxError Unit
  | [] =>
    if maxAwaitTime < elapsed then (0, .error .validationTimeout)
    else (0, .error .requestFailed)
  | d :: rest =>
    if maxAwaitTime < elapsed then (0, .error .validationTimeout)
    else if d.processed then
      if d.valid then (1, .ok ()) else (1, .error (.notValid d.url))
    else
      let next := awaitUploadValidationLoop retryInterval maxAwaitTime
        (elapsed + retryInterval) rest
      (next.1 + 1, next.2)

/-- `Store.awaitUploadValidation` with its hard-coded constants:
`retryInterval = time.Second * 5`, `maxAwaitTime = time.Minute * 20`. -/
def awaitUploadValidation (script : List UploadDetail) :
    Nat × Except FirefoxError Unit :=
  awaitUploadValidationLoop 5 (20 * 60) 0 script

/-! ## Polling-loop lemmas -/

/-- The Edge wait loop on `N` in-progress responses followed by one succeeded
response issues exactly `N + 1` queries and returns the succeeded snapshot,
provided the whole sequence fits in the wait-status timeout. -/
theorem edgeUpdateLoop_pending_then_succeeded
    (retryTimeout waitStatusTimeout : Nat) (pmsg smsg : String) :
    ∀ N elapsed, elapsed + N * retryTimeout ≤ waitStatusTimeout →
    edgeUpdateLoop retryTimeout waitStatusTimeout elapsed
        (List.replicate N ⟨"InProgress", pmsg⟩ ++ [⟨"Succeeded", smsg⟩])
      = (N + 1, .ok ⟨"Succeeded", smsg⟩) := by
  intro N
  induction N with
  | zero =>
    intro elapsed h
    simp only [Nat.zero_mul, Nat.add_zero] at h
    simp [edgeUpdateLoop, edgeStatusUnmarshal, Nat.not_lt.mpr h]
  | succ n ih =>
    intro elapsed h
    have he : elapsed ≤ waitStatusTimeout :=
      le_trans (Nat.le_add_right _ _) h
    have h' : (elapsed + retryTimeout) + n * retryTimeout ≤ waitStatusTimeout := by
      have hm : (n + 1) * retryTimeout = n * retryTimeout + retryTimeout := by ring
      omega
    simp [List.replicate_succ, edgeUpdateLoop, edgeStatusUnmarshal,
      Nat.not_lt.mpr he, ih (elapsed + retryTimeout) h']

/-- The `AwaitValidation` loop on `N` unprocessed statuses followed by one
processed status issues exactly `N + 1` queries and succeeds, provided the
whole sequence fits in the max-await time. -/
theorem awaitValidationLoop_pending_then_processed
    (retryInterval maxAwaitTime : Nat) (pend succ : FirefoxUploadStatus)
    (hpend : pend.processed = false) (hsucc : succ.processed = true) :
    ∀ N elapsed, elapsed + N * retryInterval ≤ maxAwaitTime →
    awaitValidationLoop retryInterval maxAwaitTime elapsed
        (List.replicate N pend ++ [succ])
      = (N + 1, .ok ()) := by
  intro N
  induction N with
  | zero =>
    intro elapsed h
    simp only [Nat.zero_mul, Nat.add_zero] at h
    simp [awaitValidationLoop, Nat.not_lt.mpr h, hsucc]
  | succ n ih =>
    intro elapsed h
    have he : elapsed ≤ maxAwaitTime := le_trans (Nat.le_add_right _ _) h
    have h' : (elapsed + retryInterval) + n * retryInterval ≤ maxAwaitTime := by
      have hm : (n + 1) * retryInterval = n * retryInterval + retryInterval := by ring
      omega
    simp [List.replicate_succ, awaitValidationLoop, Nat.not_lt.mpr he, hpend,
      ih (elapsed + retryInterval) h']

/-- On an all-pending script long enough to outlast the timeout, the
`AwaitValidation` loop returns the timeout error after exactly
`(maxAwaitTime - elapsed) / retryInterval + 1` queries — a bound independent
of the script, because elapsed time accumulates from loop start and is never
reset. -/
theorem awaitValidationLoop_all_pending
    (retryInterval maxAwaitTime : Nat) (hr : 0 < retryInterval) :
    ∀ (script : List FirefoxUploadStatus) (elapsed : Nat),
      (∀ st ∈ script, st.processed = false) →
      maxAwaitTime < elapsed + script.length * retryInterval →
      awaitValidationLoop retryInterval maxAwaitTime elapsed script
        = (if maxAwaitTime < elapsed then 0
           else (maxAwaitTime - elapsed) / retryInterval + 1,
           .error .validationTimeout) := by
  intro script
  induction script with
  | nil =>
    intro elapsed _ hlen
    simp only [List.length_nil, Nat.zero_mul, Nat.add_zero] at hlen
    simp [awaitValidationLoop, hlen]
  | cons st rest ih =>
    intro elapsed hall hlen
    by_cases he : maxAwaitTime < elapsed
    · simp [awaitValidationLoop, he]
    · have hst : st.processed = false := hall st (List.mem_cons_self st rest)
      have hlen' : maxAwaitTime <
          (elapsed + retryInterval) + rest.length * retryInterval := by
        simp only [List.length_cons] at hlen
        have hm : (rest.length + 1) * retryInterval
            = rest.length * retryInterval + retryInterval := by ring
        omega
      have hrest : ∀ st' ∈ rest, st'.processed = false := fun st' h' =>
        hall st' (List.mem_cons_of_mem st h')
      have hdiv : (maxAwaitTime - elapsed) / retryInterval
          = (if maxAwaitTime < elapsed + retryInterval then 0
             else (maxAwaitTime - (elapsed + retryInterval)) / retryInterval + 1) := by
        by_cases h2 : maxAwaitTime < elapsed + retryInterval
        · simp only [h2, if_true]
          exact Nat.div_eq_of_lt (by omega)
        · simp only [h2, if_false]
          rw [Nat.div_eq (maxAwaitTime - elapsed) retryInterval]
          have : retryInterval ≤ maxAwaitTime - elapsed := by omega
          simp only [hr, this, and_self, if_true, Nat.sub_sub]
      simp [awaitValidationLoop, he, hst, ih (elapsed + retryInterval) hrest hlen',
        hdiv]

/-- Same all-pending timeout bound for the newer store's
`awaitUploadValidation` loop. -/
theorem awaitUploadValidationLoop_all_pending
    (retryInterval maxAwaitTime : Nat) (hr : 0 < retryInterval) :
    ∀ (script : List UploadDetail) (elapsed : Nat),
      (∀ d ∈ script, d.processed = false) →
      maxAwaitTime < elapsed + script.length * retryInterval →
      awaitUploadValidationLoop retryInterval maxAwaitTime elapsed script
        = (if maxAwaitTime < elapsed then 0
           else (maxAwaitTime - elapsed) / retryInterval + 1,
           .error .validationTimeout) := by
  intro script
  induction script with
  | nil =>
    intro elapsed _ hlen
    simp only [List.length_nil, Nat.zero_mul, Nat.add_zero] at hlen
    simp [awaitUploadValidationLoop, hlen]
  | cons d rest ih =>
    intro elapsed hall hlen
    by_cases he : maxAwaitTime < elapsed
    · simp [awaitUploadValidationLoop, he]
    · have hd : d.processed = false := hall d (List.mem_cons_self d rest)
      have hlen' : maxAwaitTime <
          (elapsed + retryInterval) + rest.length * retryInterval := by
        simp only [List.length_cons] at hlen
        have hm : (rest.length + 1) * retryInterval
            = rest.length * retryInterval + retryInterval := by ring
        omega
      have hrest : ∀ d' ∈ rest, d'.processed = false := fun d' h' =>
        hall d' (List.mem_cons_of_mem d h')
      have hdiv : (maxAwaitTime - elapsed) / retryInterval
          = (if maxAwaitTime < elapsed + retryInterval then 0
             else (maxAwaitTime - (elapsed + retryInterval)) / retryInterval + 1) := by
        by_cases h2 : maxAwaitTime < elapsed + retryInterval
        · simp only [h2, if_true]
          exact Nat.div_eq_of_lt (by omega)
        · simp only [h2, if_false]
          rw [Nat.div_eq (maxAwaitTime - elapsed) retryInterval]
          have : retryInterval ≤ maxAwaitTime - elapsed := by omega
          simp only [hr, this, and_self, if_true, Nat.sub_sub]
      simp [awaitUploadValidationLoop, he, hd,
        ih (elapsed + retryInterval) hrest hlen', hdiv]

/-! ## Theorems: C3 and C4 -/

/-- C3: on a scripted sequence of `N` not-yet-terminal responses followed by
one succeeded response, completing within the max-await time, the Edge
`Store.Update` wait loop issues exactly `N + 1` status queries and returns
the succeeded snapshot, and `firefox.Store.AwaitValidation` on `M`
not-processed statuses followed by a processed one issues exactly `M + 1`
queries and returns success; no further query is issued in either case. -/
theorem poll_exact_queries_then_success
    (retryTimeout waitStatusTimeout N : Nat) (pmsg smsg : String)
    (hN : N * retryTimeout ≤ waitStatusTimeout)
    (M : Nat) (hM : M ≤ 20 * 60)
    (pend succ : FirefoxUploadStatus)
    (hpend : pend.processed = false) (hsucc : succ.processed = true) :
    edgeUpdateLoop retryTimeout waitStatusTimeout 0
        (List.replicate N ⟨"InProgress", pmsg⟩ ++ [⟨"Succeeded", smsg⟩])
      = (N + 1, .ok ⟨"Succeeded", smsg⟩)
    ∧ awaitValidation (List.replicate M pend ++ [succ]) = (M + 1, .ok ()) := by
  constructor
  · exact edgeUpdateLoop_pending_then_succeeded retryTimeout waitStatusTimeout
      pmsg smsg N 0 (by omega)
  · exact awaitValidationLoop_pending_then_processed 1 (20 * 60) pend succ
      hpend hsucc M 0 (by omega)

/-- Witness for `poll_exact_queries_then_success` with two pending responses
before success on each backend. -/
theorem poll_exact_queries_then_success_witness :
    edgeUpdateLoop 5 60 0
        (List.replicate 2 ⟨"InProgress", "wait"⟩ ++ [⟨"Succeeded", "done"⟩])
      = (3, .ok ⟨"Succeeded", "done"⟩)
    ∧ awaitValidation
        (List.replicate 2 ⟨false, false⟩ ++ [⟨true, true⟩]) = (3, .ok ()) :=
  poll_exact_queries_then_success 5 60 2 "wait" "done" (by decide) 2 (by decide)
    ⟨false, false⟩ ⟨true, true⟩ rfl rfl

/-- C4: on an all-pending script, `firefox.Store.AwaitValidation` (retry 1 s,
bound 20 min) returns the timeout error after exactly 1201 queries and
`Store.awaitUploadValidation` (retry 5 s, bound 20 min) after exactly 241 —
counts independent of how many pending responses the script still holds,
because elapsed time is measured from loop start and never reset; no query is
issued after the timeout error. -/
theorem firefox_poll_timeout
    (script : List FirefoxUploadStatus) (dscript : List UploadDetail)
    (hall : ∀ st ∈ script, st.processed = false)
    (hlen : 1200 < script.length)
    (hall2 : ∀ d ∈ dscript, d.processed = false)
    (hlen2 : 240 < dscript.length) :
    awaitValidation script = (1201, .error .validationTimeout)
    ∧ awaitUploadValidation dscript = (241, .error .validationTimeout) := by
  constructor
  · have h := awaitValidationLoop_all_pending 1 (20 * 60) (by decide) script 0
      hall (by omega)
    simpa [awaitValidation] using h
  · have h := awaitUploadValidationLoop_all_pending 5 (20 * 60) (by decide)
      dscript 0 hall2 (by omega)
    simpa [awaitUploadValidation] using h

/-- Witness for `firefox_poll_timeout` on concrete all-pending scripts. -/
theorem firefox_poll_timeout_witness :
    awaitValidation (List.replicate 1300 ⟨false, false⟩)
      = (1201, .error .validationTimeout)
    ∧ awaitUploadValidation (List.replicate 300 ⟨"u", false, false, "url"⟩)
      = (241, .error .validationTimeout) :=
  firefox_poll_timeout (List.replicate 1300 ⟨false, false⟩)
    (List.replicate 300 ⟨"u", false, false, "url"⟩)
    (by intro st h; rw [List.eq_of_mem_replicate h])
    (by rw [List.length_replicate]; omega)
    (by intro d h; rw [List.eq_of_mem_replicate h])
    (by rw [List.length_replicate]; omega)

/-! ## Chrome backend: `Store.Insert` / `Store.Update` response handling and
`Store.Publish` (chrome.go) -/

/-- Go `chrome.ItemError`: one entry of the `itemError` detail list. -/
structure ItemError where
  errorCode : String
  errorDetail : String
deriving DecidableEq, Repr

/-- Go `chrome.ItemResource`: the JSON body returned by the insert and update
requests. -/
structure ItemResource where
  kind : String
  id : String
  uploadState : UploadState
  itemError : List ItemError
deriving DecidableEq, Repr

/-- Errors of the chrome insert/update response handling. -/
inductive ChromeItemError where
  /-- `"got code %d, body: %q"` — non-200 HTTP status. -/
  | httpError (code : Nat)
  /-- `Insert`: `"non success upload state received: %v, %v"`. -/
  | nonSuccessUploadState (state : UploadState) (itemError : List ItemError)
  /-- `Update`: `"failure in response: %v"`. -/
  | failureInResponse (itemError : List ItemError)
deriving DecidableEq, Repr

/-- Shallow embedding of the response handling of `chrome.Store.Insert`
(after `client.Do`): reject a non-200 HTTP status, then reject any decoded
body whose `uploadState` is not `SUCCESS`, attaching the `itemError` list;
otherwise return the decoded body. -/
def chromeInsertHandleResponse (statusCode : Nat) (body : ItemResource) :
    Except ChromeItemError ItemResource :=
  if statusCode ≠ 200 then .error (.httpError statusCode)
  else if body.uploadState ≠ .success then
    .error (.nonSuccessUploadState body.uploadState body.itemError)
  else .ok body

/-- Shallow embedding of the response handling of `chrome.Store.Update`:
reject a non-200 HTTP status, then reject a decoded body whose `uploadState`
is `FAILURE`, attaching the `itemError` list; otherwise return the decoded
body. -/
def chromeUpdateHandleResponse (statusCode : Nat) (body : ItemResource) :
    Except ChromeItemError ItemResource :=
  if statusCode ≠ 200 then .error (.httpError statusCode)
  else if body.uploadState = .failure then
    .error (.failureInResponse body.itemError)
  else .ok body

/-- The network requests `chrome.Store.Publish` can issue, in order: the
OAuth refresh-token exchange performed by `Client.Authorize`, then the
publish POST with its query parameters. -/
inductive ChromeRequest where
  | authorize
  | publish (deployPercentage : Option Int) (target : String)
      (reviewExemption : Bool)
deriving DecidableEq, Repr

/-- Go `chrome.PublishOptions`. -/
structure PublishOptions where
  target : String
  deployPercentage : Option Int
  reviewExemption : Bool
deriving DecidableEq, Repr

/-- Go `chrome.PublishResponse`. -/
structure PublishResponse where
  kind : String
  itemID : String
  status : List String
  statusDetail : List String
deriving DecidableEq, Repr

/-- Errors of `chrome.Store.Publish`. -/
inductive ChromePublishError where
  /-- `"getting access token: %w"`. -/
  | authFailed (msg : String)
  /-- `"deploy percentage must be between 0 and 100, got %d"`. -/
  | invalidDeployPercentage (p : Int)
  /-- `"got code %d, body: %q"`. -/
  | httpError (code : Nat)
deriving DecidableEq, Repr

/-- Response handling shared by the publish paths of `chromePublish`:
non-200 is an error, otherwise the decoded body is returned.  `trace` is the
request trace accumulated so far. -/
def chromePublishHandleResponse (trace : List ChromeRequest)
    (response : Nat × PublishResponse) :
    List ChromeRequest × Except ChromePublishError PublishResponse :=
  if response.1 ≠ 200 then (trace, .error (.httpError response.1))
  else (trace, .ok response.2)

/-- Shallow embedding of `chrome.Store.Publish`.  The source first calls
`Client.Authorize` (issuing the token request), then builds the request body,
and only inside the query-parameter block validates `DeployPercentage`,
returning the range error before `client.Do` sends the publish request.
`authResult` scripts the outcome of the token exchange and `response` the
publish response; the returned list is the trace of issued network
requests. -/
def chromePublish (authResult : Except String String)
    (opts : Option PublishOptions) (response : Nat × PublishResponse) :
    List ChromeRequest × Except ChromePublishError PublishResponse :=
  match authResult with
  | .error e => ([.authorize], .error (.authFailed e))
  | .ok _token =>
    match opts with
    | some o =>
      match o.deployPercentage with
      | some p =>
        if p < 0 ∨ 100 < p then
          ([.authorize], .error (.invalidDeployPercentage p))
        else
          chromePublishHandleResponse
            [.authorize, .publish (some p) o.target o.reviewExemption] response
      | none =>
        chromePublishHandleResponse
          [.authorize, .publish none o.target o.reviewExemption] response
    | none =>
      chromePublishHandleResponse [.authorize, .publish none "" false] response

/-! ## Theorems: C2 and C7 -/

/-- C2 counterexample: calling `chrome.Store.Publish` with
`DeployPercentage = -1` does NOT keep the network untouched — the
authorization token request is issued (the trace is `[authorize]`, not `[]`)
before the out-of-range error is returned, because `Client.Authorize` runs
before the validation in the source. -/
theorem chromePublish_invalid_percentage_still_authorizes :
    (chromePublish (.ok "token")
        (some { target := "", deployPercentage := some (-1),
                reviewExemption := false }) (200, ⟨"", "", [], []⟩)).1
      = [ChromeRequest.authorize]
    ∧ (chromePublish (.ok "token")
        (some { target := "", deployPercentage := some (-1),
                reviewExemption := false }) (200, ⟨"", "", [], []⟩)).1
      ≠ [] := by
  constructor
  · rfl
  · intro h
    simp [chromePublish] at h

/-- C2 (amended): with a `DeployPercentage` outside `[0, 100]`,
`chrome.Store.Publish` returns the range error before the publish request is
issued: the trace consists of exactly the authorization token request and
contains no publish request. -/
theorem chromePublish_invalid_percentage_no_publish_request
    (token : String) (o : PublishOptions) (p : Int)
    (hp : o.deployPercentage = some p) (hrange : p < 0 ∨ 100 < p)
    (response : Nat × PublishResponse) :
    chromePublish (.ok token) (some o) response
      = ([.authorize], .error (.invalidDeployPercentage p))
    ∧ ∀ dp t r, ChromeRequest.publish dp t r
        ∉ (chromePublish (.ok token) (some o) response).1 := by
  have hmain : chromePublish (.ok token) (some o) response
      = ([.authorize], .error (.invalidDeployPercentage p)) := by
    simp [chromePublish, hp, if_pos hrange]
  refine ⟨hmain, ?_⟩
  intro dp t r hmem
  rw [hmain] at hmem
  simp at hmem

/-- Witness for `chromePublish_invalid_percentage_no_publish_request` at
percentage 101. -/
theorem chromePublish_invalid_percentage_witness :
    chromePublish (.ok "token")
        (some { target := "default", deployPercentage := some 101,
                reviewExemption := false }) (200, ⟨"", "", [], []⟩)
      = ([.authorize], .error (.invalidDeployPercentage 101))
    ∧ ∀ dp t r, ChromeRequest.publish dp t r
        ∉ (chromePublish (.ok "token")
            (some { target := "default", deployPercentage := some 101,
                    reviewExemption := false }) (200, ⟨"", "", [], []⟩)).1 :=
  chromePublish_invalid_percentage_no_publish_request "token"
    { target := "default", deployPercentage := some 101,
      reviewExemption := false } 101 rfl (Or.inr (by decide))
    (200, ⟨"", "", [], []⟩)

/-- C7: a 200 HTTP response whose body carries the embedded upload state
`FAILURE` is rejected by both `chrome.Store.Insert` and `chrome.Store.Update`
with an error carrying the `itemError` detail list — never returned as a
successful result. -/
theorem chrome_embedded_failure_is_error (body : ItemResource)
    (hfail : body.uploadState = .failure) :
    chromeInsertHandleResponse 200 body
      = .error (.nonSuccessUploadState .failure body.itemError)
    ∧ chromeUpdateHandleResponse 200 body
      = .error (.failureInResponse body.itemError) := by
  constructor
  · simp [chromeInsertHandleResponse, hfail]
  · simp [chromeUpdateHandleResponse, hfail]

/-- Witness for `chrome_embedded_failure_is_error` on a concrete failing
body. -/
theorem chrome_embedded_failure_is_error_witness :
    chromeInsertHandleResponse 200
        ⟨"chromewebstore#item", "null", .failure,
          [⟨"PKG_MANIFEST_PARSE_ERROR", "bad manifest"⟩]⟩
      = .error (.nonSuccessUploadState .failure
          [⟨"PKG_MANIFEST_PARSE_ERROR", "bad manifest"⟩])
    ∧ chromeUpdateHandleResponse 200
        ⟨"chromewebstore#item", "null", .failure,
          [⟨"PKG_MANIFEST_PARSE_ERROR", "bad manifest"⟩]⟩
      = .error (.failureInResponse
          [⟨"PKG_MANIFEST_PARSE_ERROR", "bad manifest"⟩]) :=
  chrome_embedded_failure_is_error
    ⟨"chromewebstore#item", "null", .failure,
      [⟨"PKG_MANIFEST_PARSE_ERROR", "bad manifest"⟩]⟩ rfl

/-! ## Firefox backend: auth-header generation (firefox.go
`Client.GenAuthHeader`; api.go `AuthHeader`) -/

/-- The JWT claims set both generators build:
`{iss: clientID, iat: now(), exp: now() + 300}`. -/
structure JWTClaims where
  iss : String
  iat : Int
  exp : Int
deriving DecidableEq, Repr

/-- `const expirationSec = 5 * 60` (both in `Client.GenAuthHeader` and in
`api.AuthHeader`). -/
def expirationSec : Int := 5 * 60

/-- Shallow embedding of `api.AuthHeader`.  HMAC-SHA256 signing
(`jwt.NewWithClaims(jwt.SigningMethodHS256, …).SignedString`) is library
code outside this repository; it is abstracted as the deterministic `sign`
parameter taking the claims set and the signing secret. -/
def authHeader (sign : JWTClaims → String → Except String String)
    (clientID clientSecret : String) (currentTimeSec : Int) :
    Except String String :=
  match sign ⟨clientID, currentTimeSec, currentTimeSec + expirationSec⟩
      clientSecret with
  | .error e => .error ("signing token: " ++ e)
  | .ok signedToken => .ok ("JWT " ++ signedToken)

/-- Go `firefox.Client`: credentials plus the injectable `now` function. -/
structure FirefoxClient where
  clientID : String
  clientSecret : String
  now : Unit → Int

/-- Shallow embedding of `firefox.Client.GenAuthHeader` (a verbatim twin of
`api.AuthHeader` reading its inputs from the client struct and `c.now()`). -/
def genAuthHeader (sign : JWTClaims → String → Except String String)
    (c : FirefoxClient) : Except String String :=
  match sign ⟨c.clientID, c.now (), c.now () + expirationSec⟩
      c.clientSecret with
  | .error e => .error ("signing token: " ++ e)
  | .ok signedToken => .ok ("JWT " ++ signedToken)

/-! ## Theorem: C8 -/

/-- C8: the Firefox auth-header generators sign exactly the claims set
`{iss: clientID, iat: now(), exp: now() + 300}` with the client secret and
return `"JWT "` followed by the signed token, failing exactly when signing
fails; they are deterministic — two clients with equal credentials and equal
injected `now` produce identical headers — and `GenAuthHeader` agrees with
`api.AuthHeader` on the same inputs (no network interaction appears anywhere
in the definitions). -/
theorem firefox_auth_header_shape
    (sign : JWTClaims → String → Except String String)
    (c c' : FirefoxClient) (clientID clientSecret : String) (now' : Int)
    (h1 : c.clientID = c'.clientID) (h2 : c.clientSecret = c'.clientSecret)
    (h3 : c.now () = c'.now ()) :
    genAuthHeader sign c = genAuthHeader sign c'
    ∧ genAuthHeader sign c
        = authHeader sign c.clientID c.clientSecret (c.now ())
    ∧ authHeader sign clientID clientSecret now'
        = (match sign ⟨clientID, now', now' + 300⟩ clientSecret with
           | .error e => .error ("signing token: " ++ e)
           | .ok signedToken => .ok ("JWT " ++ signedToken)) := by
  refine ⟨?_, rfl, rfl⟩
  simp [genAuthHeader, h1, h2, h3]

/-- Witness for `firefox_auth_header_shape` with a concrete abstract signer
and concrete clients. -/
theorem firefox_auth_header_shape_witness :
    genAuthHeader (fun cl secret => .ok (cl.iss ++ secret))
        ⟨"id", "secret", fun _ => 1000⟩
      = genAuthHeader (fun cl secret => .ok (cl.iss ++ secret))
        ⟨"id", "secret", fun _ => 1000⟩
    ∧ genAuthHeader (fun cl secret => .ok (cl.iss ++ secret))
        ⟨"id", "secret", fun _ => 1000⟩
      = authHeader (fun cl secret => .ok (cl.iss ++ secret)) "id" "secret" 1000
    ∧ authHeader (fun cl secret => .ok (cl.iss ++ secret)) "id" "secret" 1000
      = (match (fun (cl : JWTClaims) (secret : String) =>
            Except.ok (ε := String) (cl.iss ++ secret)) ⟨"id", 1000, 1000 + 300⟩
            "secret" with
         | .error e => .error ("signing token: " ++ e)
         | .ok signedToken => .ok ("JWT " ++ signedToken)) :=
  firefox_auth_header_shape (fun cl secret => .ok (cl.iss ++ secret))
    ⟨"id", "secret", fun _ => 1000⟩ ⟨"id", "secret", fun _ => 1000⟩
    "id" "secret" 1000 rfl rfl rfl

/-! ## Firefox backend: `ReviewedStatus.UnmarshalJSON` (firefox.go) -/

/-- Shallow embedding of Go `strconv.ParseBool`: accepts exactly
`1, t, T, TRUE, true, True` and `0, f, F, FALSE, false, False`. -/
def parseBool (s : String) : Except String Bool :=
  if s = "1" ∨ s = "t" ∨ s = "T" ∨ s = "TRUE" ∨ s = "true" ∨ s = "True" then
    .ok true
  else if s = "0" ∨ s = "f" ∨ s = "F" ∨ s = "FALSE" ∨ s = "false" ∨ s = "False" then
    .ok false
  else .error "syntax error"

/-- The `stringVal` computed by `ReviewedStatus.UnmarshalJSON`: the
`strconv.Unquote` of the raw bytes, falling back to the raw bytes when
unquoting fails.  `strconv.Unquote` is library code outside this repository;
it is abstracted as the `unquote` parameter. -/
def unquoteVal (unquote : String → Except String String) (b : String) :
    String :=
  match unquote b with
  | .ok v => v
  | .error _ => b

/-- Shallow embedding of `firefox.ReviewedStatus.UnmarshalJSON`: parse the
(possibly unquoted) value with `strconv.ParseBool`; on parse failure the
result is `len(stringVal) > 0`.  The method always returns nil error. -/
def reviewedStatusUnmarshal (unquote : String → Except String String)
    (b : String) : Except String Bool :=
  let stringVal := unquoteVal unquote b
  match parseBool stringVal with
  | .ok boolVal => .ok boolVal
  | .error _ => .ok (decide (0 < stringVal.length))

/-! ## Theorem: C9 -/

/-- C9: `ReviewedStatus.UnmarshalJSON` never returns an error; whenever the
(unquoted) value spells a boolean per `strconv.ParseBool` — which covers a
JSON boolean arriving as the raw bytes `true`/`false` as well as a JSON
string spelling a boolean — it decodes to that boolean; for any other input
it decodes to `true` exactly when the unquoted string form is non-empty. -/
theorem reviewed_status_normalizes
    (unquote : String → Except String String) (b : String) :
    (∃ v, reviewedStatusUnmarshal unquote b = .ok v)
    ∧ (∀ v, parseBool (unquoteVal unquote b) = .ok v →
        reviewedStatusUnmarshal unquote b = .ok v)
    ∧ (∀ e, parseBool (unquoteVal unquote b) = .error e →
        reviewedStatusUnmarshal unquote b
          = .ok (decide (unquoteVal unquote b ≠ ""))) := by
  refine ⟨?_, ?_, ?_⟩
  · unfold reviewedStatusUnmarshal
    cases h : parseBool (unquoteVal unquote b) with
    | ok v => exact ⟨v, by simp [h]⟩
    | error e =>
      exact ⟨decide (0 < (unquoteVal unquote b).length), by simp [h]⟩
  · intro v hv
    simp [reviewedStatusUnmarshal, hv]
  · intro e he
    have hlen : (0 < (unquoteVal unquote b).length)
        ↔ (unquoteVal unquote b ≠ "") := by
      constructor
      · intro h heq
        rw [heq] at h
        simp at h
      · intro h
        cases hu : unquoteVal unquote b with
        | mk data =>
          cases data with
          | nil => exact absurd (by rw [hu]) h
          | cons c cs => simp [String.length]
    simp only [reviewedStatusUnmarshal, he]
    rw [decide_eq_decide.mpr hlen]

/-- Witness for `reviewed_status_normalizes`: a trivial unquoter that strips
one layer of double quotes without escape processing, applied to the raw
bytes of the JSON string `"yes"` (not a boolean spelling, non-empty, so it
normalizes to `true`). -/
theorem reviewed_status_normalizes_witness :
    reviewedStatusUnmarshal
        (fun s =>
          if 2 ≤ s.length ∧ s.front = '\x22' ∧ s.back = '\x22' then
            .ok ((s.drop 1).dropRight 1)
          else .error "invalid syntax")
        "\x22yes\x22"
      = .ok true := by
  have h := (reviewed_status_normalizes
    (fun s =>
      if 2 ≤ s.length ∧ s.front = '\x22' ∧ s.back = '\x22' then
        .ok ((s.drop 1).dropRight 1)
      else .error "invalid syntax")
    "\x22yes\x22").2.2 "syntax error" rfl
  rw [h]
  rfl

/-! ## Firefox backend: the newer store's `Sign` flow (`Store.Sign`,
`Store.isSigned`, `Store.getVersionID`, `Store.awaitVersionSigning`,
`Store.downloadSigned`) -/

/-- Go `firefox.FileInfo` (the fields of a version's file entry). -/
structure FileInfo where
  id : Int
  status : String
  url : String
deriving DecidableEq, Repr

/-- The fields of Go `firefox.VersionInfo` the `Sign` flow inspects. -/
structure VersionInfo where
  id : Int
  version : String
  file : FileInfo
deriving DecidableEq, Repr

/-- Go `firefox.Channel` (`ChannelUnlisted` / `ChannelListed`). -/
inductive Channel where
  | unlisted
  | listed
deriving DecidableEq, Repr

/-- The calls of the `firefox.API` interface that `Store.Sign` can issue,
with the arguments relevant to the claims.  A value of this type is one
entry of a request trace. -/
inductive FirefoxAPICall where
  | downloadSignedByURL (url : String)
  | createUpload (channel : Channel)
  | uploadDetail (uuid : String)
  | createVersion (appID uuid : String)
  | versionDetail (appID versionID : String)
  | attachSourceToVersion (appID versionID : String)
  | versionsList (appID : String)
deriving DecidableEq, Repr

/-- Errors of the `Sign` flow. -/
inductive SignError where
  /-- `VersionsList` failed (`"getting versions list …"`). -/
  | versionsListFailed
  /-- `VersionDetail` failed (script exhausted / transport failure). -/
  | versionDetailFailed
  /-- file status `"disabled"`:
  `"extension will not be signed automatically"`. -/
  | notSignedAutomatically
  /-- `isSigned` on any other non-public status:
  `"extension is pending signature"`. -/
  | pendingSignature
  /-- `CreateUpload` failed. -/
  | createUploadFailed
  /-- `awaitUploadValidation` failed, carrying its error. -/
  | uploadValidation (e : FirefoxError)
  /-- `CreateVersion` failed. -/
  | createVersionFailed
  /-- `AttachSourceToVersion` failed. -/
  | attachSourceFailed
  /-- `"await signing timeout"`. -/
  | signingTimeout
  /-- `DownloadSignedByURL` failed. -/
  | downloadFailed
deriving DecidableEq, Repr

/-- Scripted behaviour of the remote API during one `Sign` call.  The
`versionDetailScript` is consumed, in order, by every `VersionDetail` call
(the `isSigned` check, the `awaitVersionSigning` polls, the `downloadSigned`
lookup); `uploadDetailScript` by the `awaitUploadValidation` polls;
exhaustion of a script models a failing request. -/
structure SignWorld where
  versionsList : Except String (List VersionInfo)
  versionDetailScript : List VersionInfo
  createUpload : Except String UploadDetail
  uploadDetailScript : List UploadDetail
  createVersion : Except String VersionInfo
  attachSource : Except String Unit
  download : Except String (List Nat)
deriving Repr

/-- Shallow embedding of `Store.getVersionID` (as used through
`Store.hasVersion`): scan the `VersionsList` response for the first entry
with the wanted version number.  The source returns the decimal string
`strconv.Itoa(v.ID)` and the empty string when no entry matches;
`strconv.Itoa` never yields the empty string, so the sentinel is modelled as
`Option`. -/
def getVersionID (listResult : Except String (List VersionInfo))
    (version : String) : Except SignError (Option Int) :=
  match listResult with
  | .error _ => .error .versionsListFailed
  | .ok vs => .ok ((vs.find? (fun v => v.version = version)).map (fun v => v.id))

/-- Shallow embedding of `Store.isSigned` applied to the outcome of its
`VersionDetail` call (`none` models a failing call): file status `"public"`
means signed; `"disabled"` and anything else are hard errors. -/
def isSigned (detail : Option VersionInfo) : Except SignError Bool :=
  match detail with
  | none => .error .versionDetailFailed
  | some d =>
    if d.file.status = "public" then .ok true
    else if d.file.status = "disabled" then .error .notSignedAutomatically
    else .error .pendingSignature

/-- Shallow embedding of `Store.downloadSigned`: one `VersionDetail` call to
learn the file URL, then `DownloadSignedByURL`; writing the artifact to the
output path is a local file-system step modelled as succeeding.  Takes the
remaining `VersionDetail` script and the scripted download outcome; returns
the trace of issued calls. -/
def downloadSigned (appID versionID : String) (vds : List VersionInfo)
    (download : Except String (List Nat)) :
    List FirefoxAPICall × Except SignError Unit :=
  match vds with
  | [] => ([.versionDetail appID versionID], .error .versionDetailFailed)
  | d :: _ =>
    match download with
    | .error _ =>
      ([.versionDetail appID versionID, .downloadSignedByURL d.file.url],
        .error .downloadFailed)
    | .ok _ =>
      ([.versionDetail appID versionID, .downloadSignedByURL d.file.url],
        .ok ())

/-- Shallow embedding of the loop of `Store.awaitVersionSigning` (retry 5 s,
bound 20 min): polls `VersionDetail` until the file status is `"public"`
(success) or `"disabled"` (hard error) or the max-await bound is exceeded.
Returns the number of polls, the unconsumed remainder of the
`VersionDetail` script and the outcome. -/
def awaitVersionSigningLoop (retryInterval maxAwaitTime elapsed : Nat) :
    List VersionInfo → Nat × List VersionInfo × Except SignError Unit
  | [] =>
    if maxAwaitTime < elapsed then (0, [], .error .signingTimeout)
    else (0, [], .error .versionDetailFailed)
  | d :: rest =>
    if maxAwaitTime < elapsed then (0, d :: rest, .error .signingTimeout)
    else if d.file.status = "public" then (1, rest, .ok ())
    else if d.file.status = "disabled" then
      (1, rest, .error .notSignedAutomatically)
    else
      let next := awaitVersionSigningLoop retryInterval maxAwaitTime
        (elapsed + retryInterval) rest
      (next.1 + 1, next.2.1, next.2.2)

/-- The tail of `Store.Sign` after `CreateVersion` succeeded: optionally
attach the source archive, await signing, download.  Returns the trace of
the calls it issues (to be appended to the caller's trace). -/
def ffSignAfterVersion (appID versionID : String) (hasSource : Bool)
    (attachSource : Except String Unit) (vds : List VersionInfo)
    (download : Except String (List Nat)) :
    List FirefoxAPICall × Except SignError Unit :=
  let proceed : List FirefoxAPICall × Except SignError Unit :=
    let sg := awaitVersionSigningLoop 5 (20 * 60) 0 vds
    let strace :=
      List.replicate sg.1 (FirefoxAPICall.versionDetail appID versionID)
    match sg.2.2 with
    | .error e => (strace, .error e)
    | .ok _ =>
      let dl := downloadSigned appID versionID sg.2.1 download
      (strace ++ dl.1, dl.2)
  if hasSource then
    match attachSource with
    | .error _ =>
      ([.attachSourceToVersion appID versionID], .error .attachSourceFailed)
    | .ok _ =>
      ([FirefoxAPICall.attachSourceToVersion appID versionID] ++ proceed.1,
        proceed.2)
  else proceed

/-- Shallow embedding of `Store.Sign` (manifest parsing, excluded from the
core, is reflected by taking `appID`/`version` as inputs; `hasSource` is
`sourcepath != ""`).  Fast path: if the version is already uploaded and its
file is public, download immediately; if it is uploaded but `isSigned`
errs, propagate; otherwise upload to the unlisted channel, await
validation, create the version, optionally attach source, await signing,
download. -/
def ffSign (appID version : String) (hasSource : Bool) (w : SignWorld) :
    List FirefoxAPICall × Except SignError Unit :=
  match getVersionID w.versionsList version with
  | .error e => ([.versionsList appID], .error e)
  | .ok (some vid) =>
    let versionID := toString vid
    match w.versionDetailScript with
    | [] =>
      ([.versionsList appID, .versionDetail appID versionID],
        .error .versionDetailFailed)
    | d :: vds =>
      match isSigned (some d) with
      | .error e =>
        ([.versionsList appID, .versionDetail appID versionID], .error e)
      | .ok true =>
        let dl := downloadSigned appID versionID vds w.download
        ([FirefoxAPICall.versionsList appID,
          FirefoxAPICall.versionDetail appID versionID] ++ dl.1, dl.2)
      | .ok false =>
        -- mirrors the source's "uploaded but not signed" nil return
        -- (unreachable: `isSigned` errs whenever the file is not public)
        ([.versionsList appID, .versionDetail appID versionID], .ok ())
  | .ok none =>
    match w.createUpload with
    | .error _ =>
      ([.versionsList appID, .createUpload .unlisted],
        .error .createUploadFailed)
    | .ok up =>
      let av := awaitUploadValidation w.uploadDetailScript
      let trace1 :=
        [FirefoxAPICall.versionsList appID,
         FirefoxAPICall.createUpload .unlisted] ++
          List.replicate av.1 (FirefoxAPICall.uploadDetail up.uuid)
      match av.2 with
      | .error e => (trace1, .error (.uploadValidation e))
      | .ok _ =>
        match w.createVersion with
        | .error _ =>
          (trace1 ++ [.createVersion appID up.uuid],
            .error .createVersionFailed)
        | .ok vinfo =>
          let tail := ffSignAfterVersion appID (toString vinfo.id) hasSource
            w.attachSource w.versionDetailScript w.download
          (trace1 ++ [FirefoxAPICall.createVersion appID up.uuid] ++ tail.1,
            tail.2)

/-! ## Theorems: C5 and C6 -/

/-- `downloadSigned` never issues an upload call. -/
theorem not_createUpload_mem_downloadSigned (ch : Channel)
    (appID versionID : String) (vds : List VersionInfo)
    (download : Except String (List Nat)) :
    FirefoxAPICall.createUpload ch
      ∉ (downloadSigned appID versionID vds download).1 := by
  cases vds with
  | nil => simp [downloadSigned]
  | cons d rest =>
    cases download with
    | error e => simp [downloadSigned]
    | ok b => simp [downloadSigned]

/-- The post-`CreateVersion` tail of `Sign` never issues an upload call. -/
theorem not_createUpload_mem_ffSignAfterVersion (ch : Channel)
    (appID versionID : String) (hasSource : Bool)
    (attachSource : Except String Unit) (vds : List VersionInfo)
    (download : Except String (List Nat)) :
    FirefoxAPICall.createUpload ch
      ∉ (ffSignAfterVersion appID versionID hasSource attachSource vds
          download).1 := by
  have hdl := not_createUpload_mem_downloadSigned ch appID versionID
    (awaitVersionSigningLoop 5 (20 * 60) 0 vds).2.1 download
  cases hasSource with
  | false =>
    cases hsg : (awaitVersionSigningLoop 5 (20 * 60) 0 vds).2.2 with
    | error e => simp [ffSignAfterVersion, hsg, List.mem_replicate]
    | ok u => simp [ffSignAfterVersion, hsg, List.mem_replicate, hdl]
  | true =>
    cases attachSource with
    | error e => simp [ffSignAfterVersion]
    | ok u =>
      cases hsg : (awaitVersionSigningLoop 5 (20 * 60) 0 vds).2.2 with
      | error e => simp [ffSignAfterVersion, hsg, List.mem_replicate]
      | ok u2 => simp [ffSignAfterVersion, hsg, List.mem_replicate, hdl]

/-- C6: whenever `Store.Sign` issues a `CreateUpload` call — over every
scripted API behaviour, package identity and source option — the channel it
passes is the unlisted channel, never the listed one. -/
theorem sign_always_uploads_unlisted (appID version : String)
    (hasSource : Bool) (w : SignWorld) (ch : Channel)
    (h : FirefoxAPICall.createUpload ch ∈ (ffSign appID version hasSource w).1) :
    ch = Channel.unlisted := by
  cases hg : getVersionID w.versionsList version with
  | error e => simp [ffSign, hg] at h
  | ok o =>
    cases o with
    | some vid =>
      cases hvd : w.versionDetailScript with
      | nil => simp [ffSign, hg, hvd] at h
      | cons d vds =>
        cases hi : isSigned (some d) with
        | error e => simp [ffSign, hg, hvd, hi] at h
        | ok b =>
          cases b with
          | true =>
            have hdl := not_createUpload_mem_downloadSigned ch appID
              (toString vid) vds w.download
            simp [ffSign, hg, hvd, hi, hdl] at h
          | false => simp [ffSign, hg, hvd, hi] at h
    | none =>
      cases hc : w.createUpload with
      | error e =>
        simp [ffSign, hg, hc] at h
        exact h
      | ok up =>
        cases hav : (awaitUploadValidation w.uploadDetailScript).2 with
        | error e =>
          simp [ffSign, hg, hc, hav, List.mem_replicate] at h
          exact h
        | ok u =>
          cases hcv : w.createVersion with
          | error e =>
            simp [ffSign, hg, hc, hav, hcv, List.mem_replicate] at h
            exact h
          | ok vinfo =>
            have ht := not_createUpload_mem_ffSignAfterVersion ch appID
              (toString vinfo.id) hasSource w.attachSource
              w.versionDetailScript w.download
            simp [ffSign, hg, hc, hav, hcv, List.mem_replicate, ht] at h
            exact h

/-- Witness for `sign_always_uploads_unlisted` on a world whose versions
list is empty, driving `Sign` into the upload path. -/
theorem sign_always_uploads_unlisted_witness : Channel.unlisted = Channel.unlisted :=
  sign_always_uploads_unlisted "app@example.org" "1.2.3" false
    { versionsList := .ok []
      versionDetailScript := []
      createUpload := .error "rejected"
      uploadDetailScript := []
      createVersion := .error "unused"
      attachSource := .ok ()
      download := .error "unused" }
    Channel.unlisted (by decide)

/-- C5: when the package's appID/version is already uploaded (the versions
list holds a matching entry) and its file status is `"public"` (already
signed), `Store.Sign` makes zero `CreateUpload` and zero `CreateVersion`
calls and goes straight to downloading the signed artifact: its trace is
exactly the versions-list lookup, the `isSigned` detail lookup, the
`downloadSigned` detail lookup and the signed-file download, and it
succeeds. -/
theorem sign_already_signed_skips_upload (appID version : String)
    (hasSource : Bool) (w : SignWorld) (vs : List VersionInfo)
    (v d d2 : VersionInfo) (rest : List VersionInfo) (bytes : List Nat)
    (hvl : w.versionsList = .ok vs)
    (hfind : vs.find? (fun x => x.version = version) = some v)
    (hscript : w.versionDetailScript = d :: d2 :: rest)
    (hpub : d.file.status = "public")
    (hdl : w.download = .ok bytes) :
    ffSign appID version hasSource w
      = ([.versionsList appID, .versionDetail appID (toString v.id),
          .versionDetail appID (toString v.id),
          .downloadSignedByURL d2.file.url], .ok ())
    ∧ (∀ ch, FirefoxAPICall.createUpload ch
        ∉ (ffSign appID version hasSource w).1)
    ∧ (∀ a u, FirefoxAPICall.createVersion a u
        ∉ (ffSign appID version hasSource w).1) := by
  have hmain : ffSign appID version hasSource w
      = ([.versionsList appID, .versionDetail appID (toString v.id),
          .versionDetail appID (toString v.id),
          .downloadSignedByURL d2.file.url], .ok ()) := by
    simp [ffSign, getVersionID, hvl, hfind, hscript, isSigned, hpub,
      downloadSigned, hdl]
  refine ⟨hmain, ?_, ?_⟩
  · intro ch
    rw [hmain]
    simp
  · intro a u
    rw [hmain]
    simp

/-- Witness for `sign_already_signed_skips_upload` on a concrete world with
an already-signed version `1.2.3`. -/
theorem sign_already_signed_skips_upload_witness :
    ffSign "app@example.org" "1.2.3" false
        { versionsList := .ok [⟨7, "1.2.3", ⟨1, "public", "https://amo/v1.xpi"⟩⟩]
          versionDetailScript :=
            [⟨7, "1.2.3", ⟨1, "public", "https://amo/v1.xpi"⟩⟩,
             ⟨7, "1.2.3", ⟨1, "public", "https://amo/v1.xpi"⟩⟩]
          createUpload := .error "unused"
          uploadDetailScript := []
          createVersion := .error "unused"
          attachSource := .ok ()
          download := .ok [1, 2, 3] }
      = ([.versionsList "app@example.org",
          .versionDetail "app@example.org" (toString (7 : Int)),
          .versionDetail "app@example.org" (toString (7 : Int)),
          .downloadSignedByURL "https://amo/v1.xpi"], .ok ())
    ∧ (∀ ch, FirefoxAPICall.createUpload ch
        ∉ (ffSign "app@example.org" "1.2.3" false
            { versionsList := .ok [⟨7, "1.2.3", ⟨1, "public", "https://amo/v1.xpi"⟩⟩]
              versionDetailScript :=
                [⟨7, "1.2.3", ⟨1, "public", "https://amo/v1.xpi"⟩⟩,
                 ⟨7, "1.2.3", ⟨1, "public", "https://amo/v1.xpi"⟩⟩]
              createUpload := .error "unused"
              uploadDetailScript := []
              createVersion := .error "unused"
              attachSource := .ok ()
              download := .ok [1, 2, 3] }).1)
    ∧ (∀ a u, FirefoxAPICall.createVersion a u
        ∉ (ffSign "app@example.org" "1.2.3" false
            { versionsList := .ok [⟨7, "1.2.3", ⟨1, "public", "https://amo/v1.xpi"⟩⟩]
              versionDetailScript :=
                [⟨7, "1.2.3", ⟨1, "public", "https://amo/v1.xpi"⟩⟩,
                 ⟨7, "1.2.3", ⟨1, "public", "https://amo/v1.xpi"⟩⟩]
              createUpload := .error "unused"
              uploadDetailScript := []
              createVersion := .error "unused"
              attachSource := .ok ()
              download := .ok [1, 2, 3] }).1) :=
  sign_already_signed_skips_upload "app@example.org" "1.2.3" false
    { versionsList := .ok [⟨7, "1.2.3", ⟨1, "public", "https://amo/v1.xpi"⟩⟩]
      versionDetailScript :=
        [⟨7, "1.2.3", ⟨1, "public", "https://amo/v1.xpi"⟩⟩,
         ⟨7, "1.2.3", ⟨1, "public", "https://amo/v1.xpi"⟩⟩]
      createUpload := .error "unused"
      uploadDetailScript := []
      createVersion := .error "unused"
      attachSource := .ok ()
      download := .ok [1, 2, 3] }
    [⟨7, "1.2.3", ⟨1, "public", "https://amo/v1.xpi"⟩⟩]
    ⟨7, "1.2.3", ⟨1, "public", "https://amo/v1.xpi"⟩⟩
    ⟨7, "1.2.3", ⟨1, "public", "https://amo/v1.xpi"⟩⟩
    ⟨7, "1.2.3", ⟨1, "public", "https://amo/v1.xpi"⟩⟩
    [] [1, 2, 3] rfl (by decide) rfl rfl rfl
